import Mathlib

/-!
Shallow embedding of the layout / cursor / edit / search core of
`src/hexeditor.py` (class `HexEditor` and its module-level tables), together
with theorems settling the frozen claims about it.

Conventions of the embedding:
* Python integers are modelled as `ℤ` (screen coordinates, cursor position,
  geometry fields), except loop counters and lengths that are intrinsically
  non-negative, which are `ℕ`.
* Python `//` and `%` are floor division / floor modulus.  Every divisor in
  the embedded code (`rowByteCount`, `dataSectionBytes`, number bases) is
  positive, and for a positive divisor Python's floor division and modulus
  coincide with Lean's Euclidean `Int./` and `Int.%` on all dividends, so we
  use `/` and `%` on `ℤ` directly.  The one truncating division
  (`int((screenCols - 8) / ...)` in the fixed-record-size branch) is
  modelled with `Int.tdiv`.
* The byte buffer `self._data_bytes` (a Python 2 `str`) is a `List ℕ` of
  byte values.
* Fallible paths are explicit: a Python `assert` that can fire becomes a
  dedicated constructor (`ConvertResult.assertFail`,
  `ResizeOutcome.assertionError`), and Python `None` results become `none` /
  `ConvertResult.outside`.
-/

namespace HexEd

/-- The four data display formats, keys of `byteDisplayFormatMap`
(src/hexeditor.py lines 28-35). -/
inductive DataFormat
  | hex
  | decimal
  | octal
  | binary
deriving DecidableEq

/-- First component of `byteDisplayFormatMap`: number of column sections per
row (`dataSectionCount` before any record-size override). -/
def byteFormatSections : DataFormat → ℤ
  | .hex => 2
  | .decimal => 2
  | .octal => 3
  | .binary => 4

/-- Second component of `byteDisplayFormatMap`: number of bytes in a section
(`dataSectionBytes`). -/
def byteFormatSectionBytes : DataFormat → ℤ
  | .hex => 8
  | .decimal => 5
  | .octal => 4
  | .binary => 1

/-- Third component of `byteDisplayFormatMap`: number of characters used to
display one byte (`dataColByteCount`).  The fourth component, the render
format string, is rendering-only and not modelled. -/
def byteFormatColByteCount : DataFormat → ℤ
  | .hex => 2
  | .decimal => 3
  | .octal => 3
  | .binary => 8

/-- `numberBases` (src/hexeditor.py lines 42-47). -/
def numberBases : DataFormat → ℕ
  | .hex => 16
  | .decimal => 10
  | .octal => 8
  | .binary => 2

/-- `validInputChars` (src/hexeditor.py lines 36-41).  The hex entry of the
source is the string "01234567890abcdefABCDEF", which contains the digit 0
twice; the duplicate is kept. -/
def validInputChars : DataFormat → List Char
  | .hex => "01234567890abcdefABCDEF".toList
  | .decimal => "0123456789".toList
  | .octal => "01234567".toList
  | .binary => "01".toList

/-- The outer gate of the data-area edit branch in `mainLoop`
(src/hexeditor.py line 804): the literal string '0123456789abcdefABCDEF'. -/
def globalEditInputChars : List Char :=
  "0123456789abcdefABCDEF".toList

/-- The screen-layout attributes computed by
`HexEditor.computeScreenParams` (src/hexeditor.py lines 365-402).
`remSection` is the source's `partialSection` attribute. -/
structure Geometry where
  screenRows : ℤ
  screenCols : ℤ
  offsetWidth : ℤ
  dataSectionCount : ℤ
  dataSectionBytes : ℤ
  dataColByteCount : ℤ
  rowByteCount : ℤ
  visibleDataSectionCount : ℤ
  remSection : ℤ
  dataSectionWidth : ℤ
  dataLeftCol : ℤ
  dataRightCol : ℤ
  dataFirstRow : ℤ
  statusRow : ℤ
  dataLastRow : ℤ
  dataRowCount : ℤ
  textSectionWidth : ℤ
  textLeftCol : ℤ
  textRightCol : ℤ
deriving DecidableEq

/-- `HexEditor.computeScreenParams` (src/hexeditor.py lines 365-402).
`auxRowCount` is `len(self.complexDataInstanceRows)`, which is 2 for both the
normal and the mailbag field configuration. -/
def computeScreenParams (fmt : DataFormat) (recSize : Option ℤ)
    (screenRows screenCols auxRowCount : ℤ) : Geometry :=
  let offsetWidth : ℤ := 8
  let sections := byteFormatSections fmt
  let sectionBytes := byteFormatSectionBytes fmt
  let colByteCount := byteFormatColByteCount fmt
  let rowByteCount := match recSize with
    | some r => r
    | none => sections * sectionBytes
  let visibleSections := match recSize with
    | some _ => Int.tdiv (screenCols - 8) (sectionBytes * colByteCount + sectionBytes + 2)
    | none => sections
  let dataSectionCount := match recSize with
    | some r => r / sectionBytes
    | none => sections
  let remSection := match recSize with
    | some r => r % sectionBytes
    | none => 0
  let dataSectionWidth := visibleSections * sectionBytes * colByteCount + dataSectionCount - 1
  let dataLeftCol := offsetWidth + 1
  let dataRightCol := dataLeftCol + dataSectionWidth - 1
  let dataFirstRow : ℤ := 0
  let statusRow := screenRows - 1
  let dataLastRow := statusRow - auxRowCount - 2
  let dataRowCount := dataLastRow + 1 - dataFirstRow
  let textSectionWidth := visibleSections * sectionBytes + dataSectionCount - 1
  let textLeftCol := dataRightCol + 2
  let textRightCol := textLeftCol + textSectionWidth - 1
  { screenRows := screenRows, screenCols := screenCols, offsetWidth := offsetWidth,
    dataSectionCount := dataSectionCount, dataSectionBytes := sectionBytes,
    dataColByteCount := colByteCount, rowByteCount := rowByteCount,
    visibleDataSectionCount := visibleSections, remSection := remSection,
    dataSectionWidth := dataSectionWidth, dataLeftCol := dataLeftCol,
    dataRightCol := dataRightCol, dataFirstRow := dataFirstRow, statusRow := statusRow,
    dataLastRow := dataLastRow, dataRowCount := dataRowCount,
    textSectionWidth := textSectionWidth, textLeftCol := textLeftCol,
    textRightCol := textRightCol }

/-- `HexEditor.textDisplayCursorPos` (src/hexeditor.py lines 412-428).
The two source `assert`s (cursor line on the visible screen) are modelled by
returning `none` when they would fire. -/
def textDisplayCursorPos (g : Geometry) (cursorPos firstDisplayLine : ℤ) :
    Option (ℤ × ℤ) :=
  let cursorLine := cursorPos / g.rowByteCount
  let rowBytePos := cursorPos % g.rowByteCount
  let lastDisplayLine := firstDisplayLine + g.dataRowCount - 1
  if cursorLine < firstDisplayLine then none
  else if lastDisplayLine < cursorLine then none
  else some (cursorLine - firstDisplayLine + g.dataFirstRow,
             g.textLeftCol + rowBytePos + rowBytePos / g.dataSectionBytes)

/-- `HexEditor.dataDisplayCursorPos` (src/hexeditor.py lines 430-446), with
the same treatment of the asserts. -/
def dataDisplayCursorPos (g : Geometry) (cursorPos firstDisplayLine : ℤ) :
    Option (ℤ × ℤ) :=
  let cursorLine := cursorPos / g.rowByteCount
  let rowBytePos := cursorPos % g.rowByteCount
  let lastDisplayLine := firstDisplayLine + g.dataRowCount - 1
  if cursorLine < firstDisplayLine then none
  else if lastDisplayLine < cursorLine then none
  else some (cursorLine - firstDisplayLine + g.dataFirstRow,
             g.dataLeftCol + g.dataColByteCount * rowBytePos + rowBytePos / g.dataSectionBytes)

/-- The nested loops of the inner function `findByteOffset` of
`HexEditor.convertScreenPosToCursorPos` (src/hexeditor.py lines 470-481),
flattened: the source iterates `dataSectionCount` sections of
`dataSectionBytes` bytes each and bumps `columnPtr` by one extra column after
every completed section; here `remaining` counts the total bytes left
(`dataSectionCount * dataSectionBytes` at the call site) and the extra bump
happens when `byteOffsetPtr + 1` is a multiple of `sectionBytes`, which is
the same schedule.  `none` models the source's `assert False` after the
loops. -/
def findByteOffsetAux (sectionBytes step x : ℤ) : ℤ → ℤ → ℕ → Option ℤ
  | _, _, 0 => none
  | columnPtr, byteOffsetPtr, remaining + 1 =>
    let columnPtr := columnPtr + step
    if x < columnPtr then some byteOffsetPtr
    else
      findByteOffsetAux sectionBytes step x
        (if (byteOffsetPtr + 1) % sectionBytes = 0 then columnPtr + 1 else columnPtr)
        (byteOffsetPtr + 1) remaining

/-- Result of `HexEditor.convertScreenPosToCursorPos`: `outside` is the
Python `None`, `offset` a computed byte position, `assertFail` the
`assert False, "Should never happen"` inside `findByteOffset`. -/
inductive ConvertResult
  | assertFail
  | outside
  | offset (o : ℤ)
deriving DecidableEq

/-- `HexEditor.convertScreenPosToCursorPos` (src/hexeditor.py lines
448-482). -/
def convertScreenPosToCursorPos (g : Geometry) (firstDisplayLine y x : ℤ) :
    ConvertResult :=
  if g.dataFirstRow ≤ y ∧ y ≤ g.dataLastRow then
    let yComponent := g.rowByteCount * (y - g.dataFirstRow + firstDisplayLine)
    if g.dataLeftCol ≤ x ∧ x ≤ g.dataRightCol then
      match findByteOffsetAux g.dataSectionBytes g.dataColByteCount x g.dataLeftCol 0
          (g.dataSectionCount * g.dataSectionBytes).toNat with
      | some b => .offset (yComponent + b)
      | none => .assertFail
    else if g.textLeftCol ≤ x ∧ x ≤ g.textRightCol then
      match findByteOffsetAux g.dataSectionBytes 1 x g.textLeftCol 0
          (g.dataSectionCount * g.dataSectionBytes).toNat with
      | some b => .offset (yComponent + b)
      | none => .assertFail
    else .outside
  else .outside

/-- Result of `HexEditor.resize` (src/hexeditor.py lines 484-494): `ok` when
the width assertion `self.screenCols > self.textRightCol` passes,
`assertionError` when it fails.  (When it fails the Python `assert` raises;
its message expression even references the undefined bare name
`textRightCol`, so formatting the message raises `NameError` first — either
way the program crashes rather than recovering.) -/
inductive ResizeOutcome
  | ok (g : Geometry)
  | assertionError (g : Geometry)
deriving DecidableEq

/-- `HexEditor.resize` (src/hexeditor.py lines 484-494), minus the terminal
back-end call `curses.resizeterm`. -/
def resize (fmt : DataFormat) (recSize : Option ℤ)
    (screenRows screenCols auxRowCount : ℤ) : ResizeOutcome :=
  let g := computeScreenParams fmt recSize screenRows screenCols auxRowCount
  if g.textRightCol < g.screenCols then .ok g else .assertionError g

/-- The cursor/viewport state mutated by `HexEditor.moveCursor`. -/
structure CursorState where
  cursorPos : ℤ
  firstDisplayLine : ℤ
deriving DecidableEq

/-- `HexEditor.moveCursor` (src/hexeditor.py lines 700-726).  `dataLen` is
`len(self._data_bytes)`. -/
def moveCursor (g : Geometry) (dataLen : ℤ) (s : CursorState) (byteCount : ℤ)
    (normalize : Bool) : CursorState :=
  let cursorPos := s.cursorPos + byteCount
  let cursorPos := if 0 ≤ byteCount then min (dataLen - 1) cursorPos else cursorPos
  let cursorPos := if byteCount ≤ 0 then max 0 cursorPos else cursorPos
  let cursorLine := cursorPos / g.rowByteCount
  let eofFirstDisplayLine := max (dataLen / g.rowByteCount - g.dataRowCount + 1) 0
  let lastDisplayLine := s.firstDisplayLine + g.dataRowCount - 1
  let firstDisplayLine :=
    if cursorLine < s.firstDisplayLine then cursorLine
    else if lastDisplayLine < cursorLine then
      if normalize then cursorLine else s.firstDisplayLine + (cursorLine - lastDisplayLine)
    else s.firstDisplayLine
  let firstDisplayLine := max firstDisplayLine 0
  let firstDisplayLine := min firstDisplayLine eofFirstDisplayLine
  { cursorPos := cursorPos, firstDisplayLine := firstDisplayLine }

/-- The editor state touched by the byte-editing branches of
`HexEditor.mainLoop`. -/
structure EditorState where
  dataBytes : List ℕ
  cursorPos : ℤ
  firstDisplayLine : ℤ
  editChars : List Char
  modified : Bool
deriving DecidableEq

/-- The buffer update
`self._data_bytes[:p] + chr(b) + self._data_bytes[p+1:]`
(src/hexeditor.py lines 817 and 825).  The cursor position is non-negative
whenever this runs, so Python's negative-index slicing never applies. -/
def writeByteAt (data : List ℕ) (p : ℤ) (b : ℕ) : List ℕ :=
  data.take p.toNat ++ [b] ++ data.drop (p.toNat + 1)

/-- Value of one digit character, as used by Python `int(s, base)`. -/
def digitVal (c : Char) : ℕ :=
  if '0' ≤ c ∧ c ≤ '9' then c.toNat - '0'.toNat
  else if 'a' ≤ c ∧ c ≤ 'z' then c.toNat - 'a'.toNat + 10
  else if 'A' ≤ c ∧ c ≤ 'Z' then c.toNat - 'A'.toNat + 10
  else 0

/-- Python `int(s, base)` for the only use in scope: a non-empty string of
digits that are all legal for `base`. -/
def parseIntBase (base : ℕ) (digits : List Char) : ℕ :=
  digits.foldl (fun acc c => acc * base + digitVal c) 0

/-- The data-area character handling of `HexEditor.mainLoop`
(src/hexeditor.py lines 804-821 and, for a character failing the outer gate,
the `else` branch at lines 831-832) for a plain printable character `key`
while `inputArea == "data"`.  Navigation/control keys are dispatched further
down the source's `elif` chain and are outside this function's scope; for a
plain character that matches none of them the `else` branch only clears
`self._editChars`. -/
def dataAreaKey (fmt : DataFormat) (g : Geometry) (s : EditorState) (key : Char) :
    EditorState :=
  if key ∈ globalEditInputChars then
    if key ∈ validInputChars fmt then
      let editChars := s.editChars ++ [key]
      if (editChars.length : ℤ) = byteFormatColByteCount fmt then
        let updateByte := parseIntBase (numberBases fmt) editChars
        if updateByte < 256 then
          let newData := writeByteAt s.dataBytes s.cursorPos updateByte
          let cur := moveCursor g newData.length ⟨s.cursorPos, s.firstDisplayLine⟩ 1 false
          { dataBytes := newData, cursorPos := cur.cursorPos,
            firstDisplayLine := cur.firstDisplayLine, editChars := [], modified := true }
        else { s with editChars := [] }
      else { s with editChars := editChars }
    else s
  else { s with editChars := [] }

/-- The text-area character handling of `HexEditor.mainLoop`
(src/hexeditor.py lines 822-830) in the successful-encode case.
`encodedByte` is the single byte `chr(ch).encode(codec)`; for
`32 <= ch <= 127` both codecs in scope (cp1252 and cp1140) encode to exactly
one byte. -/
def textAreaKey (g : Geometry) (s : EditorState) (encodedByte : ℕ) : EditorState :=
  let newData := writeByteAt s.dataBytes s.cursorPos encodedByte
  let cur := moveCursor g newData.length ⟨s.cursorPos, s.firstDisplayLine⟩ 1 false
  { dataBytes := newData, cursorPos := cur.cursorPos,
    firstDisplayLine := cur.firstDisplayLine, editChars := s.editChars, modified := true }

/-- The buffer update of the `IntField.strVal` setter (src/hexeditor.py
lines 109-121).  `packed` is `struct.pack(endian+recFmt, int(val))`, whose
length always equals the field's `byte_count`; the slice end in the source is
`cursorPos + len(bytesStr)`, i.e. `cursorPos + packed.length` here. -/
def intFieldWrite (data : List ℕ) (cursorPos byteCount : ℕ) (packed : List ℕ) :
    List ℕ :=
  if cursorPos + byteCount ≤ data.length then
    data.take cursorPos ++ packed ++ data.drop (cursorPos + packed.length)
  else data

/-- Python `str.find(sub, start)`: least `p ≥ start` such that `sub` occurs
at `p` (fully inside the haystack); `none` models the Python result `-1`. -/
def strFind (hay pat : List ℕ) (start : ℕ) : Option ℕ :=
  (List.range (hay.length + 1)).find? fun p =>
    decide (start ≤ p) && decide (p + pat.length ≤ hay.length) &&
    decide ((hay.drop p).take pat.length = pat)

/-- Python `str.rfind(sub, start, stop)`: greatest `p ≥ start` such that
`sub` occurs at `p` fully inside `hay[start:stop]`; `none` models `-1`.
(The searches in scope always have a non-empty pattern, so Python's
negative-index corner for `stop` cannot arise.) -/
def strRfind (hay pat : List ℕ) (start stop : ℕ) : Option ℕ :=
  ((List.range (hay.length + 1)).filter fun p =>
    decide (start ≤ p) && decide (p + pat.length ≤ min stop hay.length) &&
    decide ((hay.drop p).take pat.length = pat)).getLast?

inductive SearchDirection
  | forward
  | backward
deriving DecidableEq

/-- The final search step of `HexEditor.showSearchDialog` (src/hexeditor.py
lines 1234-1240):
`self._data_bytes.find(bytesStr, self._cursorPos+1)` going forward,
`self._data_bytes.rfind(bytesStr, 0, self._cursorPos+len(bytesStr)-1)`
going backward; `none` is the "not found" outcome (`index == -1`, the dialog
stays open). -/
def searchBytes (data pat : List ℕ) (cursorPos : ℕ) (dir : SearchDirection) :
    Option ℕ :=
  match dir with
  | .forward => strFind data pat (cursorPos + 1)
  | .backward => strRfind data pat 0 (cursorPos + pat.length - 1)

/-- `isInRectangle` (src/hexeditor.py lines 63-67). -/
def isInRectangle (point ulPoint lrPoint : ℤ × ℤ) : Bool :=
  decide (ulPoint.1 ≤ point.1) && decide (point.1 ≤ lrPoint.1) &&
  decide (ulPoint.2 ≤ point.2) && decide (point.2 ≤ lrPoint.2)

/-- The cursor assignment of `HexEditor.performMouseClick` (src/hexeditor.py
lines 728-737): inside the data or text rectangle the source assigns
`self._cursorPos = self.convertScreenPosToCursorPos(y, x)` with no further
checks or clamping.  The fallback to `oldCursorPos` stands in for the
non-`offset` results, which cannot occur for coordinates inside either
rectangle (see the claim 10 theorem); elsewhere the click does not move the
cursor. -/
def performMouseClickCursor (g : Geometry) (firstDisplayLine y x oldCursorPos : ℤ) :
    ℤ :=
  if isInRectangle (y, x) (g.dataFirstRow, g.dataLeftCol) (g.dataLastRow, g.dataRightCol)
      || isInRectangle (y, x) (g.dataFirstRow, g.textLeftCol) (g.dataLastRow, g.textRightCol) then
    match convertScreenPosToCursorPos g firstDisplayLine y x with
    | .offset o => o
    | _ => oldCursorPos
  else oldCursorPos

/-- The claim 5 test buffer, the bytes of b"ABCXYZABC". -/
def abcBuffer : List ℕ := [65, 66, 67, 88, 89, 90, 65, 66, 67]

/-- The search pattern "ABC" in text format: in ascii mode the source uses
the search string's bytes directly (`bytesStr = self.searchStr`,
src/hexeditor.py line 1194). -/
def abcPattern : List ℕ := [65, 66, 67]

end HexEd

namespace HexEd

/-! ## Arithmetic helper lemmas -/

theorem ediv_succ_of_emod_eq_zero {j B : ℤ} (hB : 0 < B) (h : (j + 1) % B = 0) :
    (j + 1) / B = j / B + 1 := by
  obtain ⟨m, hm⟩ := Int.dvd_of_emod_eq_zero h
  have hj : j = (B - 1) + B * (m - 1) := by linear_combination hm
  have h1 : (j + 1) / B = m := by
    rw [hm]; exact Int.mul_ediv_cancel_left m (by omega)
  have h2 : j / B = (B - 1) / B + (m - 1) := by
    conv_lhs => rw [hj]
    exact Int.add_mul_ediv_left (B - 1) (m - 1) hB.ne'
  have h3 : (B - 1) / B = 0 := Int.ediv_eq_zero_of_lt (by omega) (by omega)
  omega

theorem ediv_succ_of_emod_ne_zero {j B : ℤ} (hB : 0 < B) (h : (j + 1) % B ≠ 0) :
    (j + 1) / B = j / B := by
  have hq := Int.ediv_add_emod (j + 1) B
  have hr0 : 0 ≤ (j + 1) % B := Int.emod_nonneg _ (by omega)
  have hrB : (j + 1) % B < B := Int.emod_lt_of_pos _ hB
  have hj : j = ((j + 1) % B - 1) + B * ((j + 1) / B) := by linarith
  have h2 : j / B = ((j + 1) % B - 1) / B + (j + 1) / B := by
    conv_lhs => rw [hj]
    exact Int.add_mul_ediv_left ((j + 1) % B - 1) ((j + 1) / B) hB.ne'
  have h3 : ((j + 1) % B - 1) / B = 0 := Int.ediv_eq_zero_of_lt (by omega) (by omega)
  omega

/-- `(G * B - 1) / B = G - 1` for positive `B`, `G`: the column of the last
byte of a row gains one gap per completed section except the last. -/
theorem pred_mul_ediv {G B : ℤ} (hG : 0 < G) (hB : 0 < B) :
    (G * B - 1) / B = G - 1 := by
  have e : G * B - 1 = (B - 1) + B * (G - 1) := by ring
  rw [e, Int.add_mul_ediv_left (B - 1) (G - 1) hB.ne',
    Int.ediv_eq_zero_of_lt (by omega) (by omega)]
  omega

/-- One step of the walk: adding the inter-section gap exactly when the next
byte index is a multiple of `B` keeps the column pointer equal to
`L + step * j + j / B`. -/
theorem gapStep (B step L j : ℤ) (hB : 0 < B) :
    (if (j + 1) % B = 0 then L + step * j + j / B + step + 1
      else L + step * j + j / B + step) = L + step * (j + 1) + (j + 1) / B := by
  split_ifs with hmod
  · rw [ediv_succ_of_emod_eq_zero hB hmod]; ring
  · rw [ediv_succ_of_emod_ne_zero hB hmod]; ring

/-! ## The column walk of `convertScreenPosToCursorPos` -/

/-- The walk started at byte `j` with column pointer `L + step * j + j / B`
returns exactly `k` when `x` is the exact screen column of byte `k`
(`x = L + step * k + k / B`) and `k` is within the remaining fuel. -/
theorem findByteOffsetAux_finds (B step L x k : ℤ) (hB : 0 < B) (hstep : 0 < step)
    (hx : x = L + step * k + k / B) :
    ∀ (r : ℕ) (j : ℤ), 0 ≤ j → j ≤ k → k < j + r →
      findByteOffsetAux B step x (L + step * j + j / B) j r = some k := by
  intro r
  induction r with
  | zero => intro j h0 hjk hkr; exfalso; push_cast at hkr; omega
  | succ r ih =>
    intro j h0 hjk hkr
    simp only [findByteOffsetAux]
    rcases eq_or_lt_of_le hjk with rfl | hlt
    · have hc : x < L + step * j + j / B + step := by rw [hx]; linarith
      rw [if_pos hc]
    · have hdiv : j / B ≤ k / B := Int.ediv_le_ediv hB (le_of_lt hlt)
      have hmul : step * (j + 1) ≤ step * k :=
        mul_le_mul_of_nonneg_left (by omega) (le_of_lt hstep)
      have hc : ¬ x < L + step * j + j / B + step := by
        rw [hx]; push_neg; nlinarith
      rw [if_neg hc]
      rw [gapStep B step L j hB]
      exact ih (j + 1) (by omega) (by omega) (by push_cast at hkr ⊢; omega)

/-- The walk started at byte `j` returns some byte index whenever `x` lies
left of the column reached after consuming all the fuel; this is what rules
out the source's `assert False` for clicks inside either region. -/
theorem findByteOffsetAux_succeeds (B step L x : ℤ) (hB : 0 < B) :
    ∀ (r : ℕ) (j : ℤ), 0 ≤ j → 1 ≤ r →
      x < L + step * (j + r) + (j + r - 1) / B →
      ∃ b, findByteOffsetAux B step x (L + step * j + j / B) j r = some b := by
  intro r
  induction r with
  | zero => intro j _ h1 _; omega
  | succ r ih =>
    intro j hj _ hbound
    simp only [findByteOffsetAux]
    by_cases hc : x < L + step * j + j / B + step
    · rw [if_pos hc]; exact ⟨j, rfl⟩
    · rw [if_neg hc]
      push_neg at hc
      rcases Nat.eq_zero_or_pos r with rfl | hr
      · exfalso
        push_cast at hbound
        have e3 : j + (1 : ℤ) - 1 = j := by ring
        rw [e3] at hbound
        have e4 : step * (j + 1) = step * j + step := by ring
        rw [e4] at hbound
        linarith
      · rw [gapStep B step L j hB]
        apply ih (j + 1) (by omega) hr
        push_cast at hbound ⊢
        have e1 : j + 1 + (r : ℤ) = j + ((r : ℤ) + 1) := by ring
        rw [e1]
        exact hbound

/-! ## Projection lemmas for `computeScreenParams` without a record size -/

theorem csp_dataSectionBytes (fmt : DataFormat) (rS : Option ℤ) (rows cols aux : ℤ) :
    (computeScreenParams fmt rS rows cols aux).dataSectionBytes =
      byteFormatSectionBytes fmt := rfl

theorem csp_dataColByteCount (fmt : DataFormat) (rS : Option ℤ) (rows cols aux : ℤ) :
    (computeScreenParams fmt rS rows cols aux).dataColByteCount =
      byteFormatColByteCount fmt := rfl

theorem csp_dataSectionCount (fmt : DataFormat) (rows cols aux : ℤ) :
    (computeScreenParams fmt none rows cols aux).dataSectionCount =
      byteFormatSections fmt := rfl

theorem csp_rowByteCount (fmt : DataFormat) (rows cols aux : ℤ) :
    (computeScreenParams fmt none rows cols aux).rowByteCount =
      byteFormatSections fmt * byteFormatSectionBytes fmt := rfl

theorem csp_dataFirstRow (fmt : DataFormat) (rS : Option ℤ) (rows cols aux : ℤ) :
    (computeScreenParams fmt rS rows cols aux).dataFirstRow = 0 := rfl

theorem csp_dataLastRow (fmt : DataFormat) (rS : Option ℤ) (rows cols aux : ℤ) :
    (computeScreenParams fmt rS rows cols aux).dataLastRow =
      rows - 1 - aux - 2 := rfl

theorem csp_dataRowCount (fmt : DataFormat) (rS : Option ℤ) (rows cols aux : ℤ) :
    (computeScreenParams fmt rS rows cols aux).dataRowCount =
      rows - 1 - aux - 2 + 1 - 0 := rfl

theorem csp_lastRow_eq (fmt : DataFormat) (rS : Option ℤ) (rows cols aux : ℤ) :
    (computeScreenParams fmt rS rows cols aux).dataLastRow =
      (computeScreenParams fmt rS rows cols aux).dataRowCount - 1 := by
  rw [csp_dataLastRow, csp_dataRowCount]; ring

theorem csp_dataLeftCol (fmt : DataFormat) (rS : Option ℤ) (rows cols aux : ℤ) :
    (computeScreenParams fmt rS rows cols aux).dataLeftCol = 9 := by
  show (8 : ℤ) + 1 = 9
  norm_num

theorem csp_dataSectionWidth (fmt : DataFormat) (rows cols aux : ℤ) :
    (computeScreenParams fmt none rows cols aux).dataSectionWidth =
      byteFormatSections fmt * byteFormatSectionBytes fmt * byteFormatColByteCount fmt +
        byteFormatSections fmt - 1 := rfl

theorem csp_textSectionWidth (fmt : DataFormat) (rows cols aux : ℤ) :
    (computeScreenParams fmt none rows cols aux).textSectionWidth =
      byteFormatSections fmt * byteFormatSectionBytes fmt + byteFormatSections fmt - 1 := rfl

theorem csp_dataRightCol (fmt : DataFormat) (rS : Option ℤ) (rows cols aux : ℤ) :
    (computeScreenParams fmt rS rows cols aux).dataRightCol =
      (computeScreenParams fmt rS rows cols aux).dataLeftCol +
        (computeScreenParams fmt rS rows cols aux).dataSectionWidth - 1 := rfl

theorem csp_dataRightCol_eq (fmt : DataFormat) (rows cols aux : ℤ) :
    (computeScreenParams fmt none rows cols aux).dataRightCol =
      (computeScreenParams fmt none rows cols aux).dataLeftCol +
        byteFormatSections fmt * byteFormatSectionBytes fmt * byteFormatColByteCount fmt +
        byteFormatSections fmt - 2 := by
  rw [csp_dataRightCol, csp_dataSectionWidth]; ring

theorem csp_textLeftCol_eq (fmt : DataFormat) (rS : Option ℤ) (rows cols aux : ℤ) :
    (computeScreenParams fmt rS rows cols aux).textLeftCol =
      (computeScreenParams fmt rS rows cols aux).dataRightCol + 2 := rfl

theorem csp_textRightCol (fmt : DataFormat) (rS : Option ℤ) (rows cols aux : ℤ) :
    (computeScreenParams fmt rS rows cols aux).textRightCol =
      (computeScreenParams fmt rS rows cols aux).textLeftCol +
        (computeScreenParams fmt rS rows cols aux).textSectionWidth - 1 := rfl

theorem csp_textRightCol_eq (fmt : DataFormat) (rows cols aux : ℤ) :
    (computeScreenParams fmt none rows cols aux).textRightCol =
      (computeScreenParams fmt none rows cols aux).textLeftCol +
        byteFormatSections fmt * byteFormatSectionBytes fmt +
        byteFormatSections fmt - 2 := by
  rw [csp_textRightCol, csp_textSectionWidth]; ring

theorem sections_pos (fmt : DataFormat) : 0 < byteFormatSections fmt := by
  cases fmt <;> decide

theorem sectionBytes_pos (fmt : DataFormat) : 0 < byteFormatSectionBytes fmt := by
  cases fmt <;> decide

theorem colByteCount_pos (fmt : DataFormat) : 0 < byteFormatColByteCount fmt := by
  cases fmt <;> decide

theorem csp_rowByteCount_pos (fmt : DataFormat) (rows cols aux : ℤ) :
    0 < (computeScreenParams fmt none rows cols aux).rowByteCount := by
  rw [csp_rowByteCount]
  exact mul_pos (sections_pos fmt) (sectionBytes_pos fmt)

/-- Every digit legal for some radix passes the outer gate
`key in '0123456789abcdefABCDEF'` of the data-area edit branch. -/
theorem validInputChars_subset_global (fmt : DataFormat) (key : Char)
    (h : key ∈ validInputChars fmt) : key ∈ globalEditInputChars := by
  have hsub : ∀ k ∈ validInputChars fmt, k ∈ globalEditInputChars := by
    cases fmt <;> decide
  exact hsub key h

/-! ## Round trip between display coordinates and byte offsets -/

/-- Core of claim 1, stated over an abstract geometry whose fields satisfy
the relations produced by `computeScreenParams` without a record size:
for an on-screen offset `o`, both display-position maps land inside their
region and `convertScreenPosToCursorPos` recovers `o`. -/
theorem roundtrip_core (g : Geometry) (G B c o fDL : ℤ)
    (hG : 0 < G) (hB : 0 < B) (hc : 0 < c)
    (hSB : g.dataSectionBytes = B) (hCB : g.dataColByteCount = c)
    (hSC : g.dataSectionCount = G) (hW : g.rowByteCount = G * B)
    (hDR : g.dataRightCol = g.dataLeftCol + G * B * c + G - 2)
    (hTL : g.textLeftCol = g.dataRightCol + 2)
    (hTR : g.textRightCol = g.textLeftCol + G * B + G - 2)
    (hFR : g.dataFirstRow = 0)
    (hLR : g.dataLastRow = g.dataRowCount - 1)
    (ho : 0 ≤ o)
    (h1 : fDL ≤ o / (G * B)) (h2 : o / (G * B) ≤ fDL + g.dataRowCount - 1) :
    (dataDisplayCursorPos g o fDL =
        some (o / (G * B) - fDL,
          g.dataLeftCol + c * (o % (G * B)) + (o % (G * B)) / B) ∧
      convertScreenPosToCursorPos g fDL (o / (G * B) - fDL)
        (g.dataLeftCol + c * (o % (G * B)) + (o % (G * B)) / B) = .offset o) ∧
    (textDisplayCursorPos g o fDL =
        some (o / (G * B) - fDL,
          g.textLeftCol + (o % (G * B)) + (o % (G * B)) / B) ∧
      convertScreenPosToCursorPos g fDL (o / (G * B) - fDL)
        (g.textLeftCol + (o % (G * B)) + (o % (G * B)) / B) = .offset o) := by
  have hWpos : 0 < G * B := mul_pos hG hB
  obtain ⟨DL, hDL⟩ : ∃ v, g.dataLeftCol = v := ⟨_, rfl⟩
  obtain ⟨DR, hDRv⟩ : ∃ v, g.dataRightCol = v := ⟨_, rfl⟩
  obtain ⟨TL, hTLv⟩ : ∃ v, g.textLeftCol = v := ⟨_, rfl⟩
  obtain ⟨TR, hTRv⟩ : ∃ v, g.textRightCol = v := ⟨_, rfl⟩
  obtain ⟨RC, hRCv⟩ : ∃ v, g.dataRowCount = v := ⟨_, rfl⟩
  obtain ⟨l, hl⟩ : ∃ v, o / (G * B) = v := ⟨_, rfl⟩
  obtain ⟨k, hk⟩ : ∃ v, o % (G * B) = v := ⟨_, rfl⟩
  rw [hDL] at hDR
  rw [hDRv] at hDR hTL
  rw [hTLv] at hTL hTR
  rw [hTRv] at hTR
  rw [hRCv] at hLR h2
  rw [hl] at h1 h2
  have hk0 : 0 ≤ k := by rw [← hk]; exact Int.emod_nonneg o hWpos.ne'
  have hkW : k < G * B := by rw [← hk]; exact Int.emod_lt_of_pos o hWpos
  have hok : G * B * l + k = o := by rw [← hl, ← hk]; exact Int.ediv_add_emod o (G * B)
  have hkB0 : 0 ≤ k / B := Int.ediv_nonneg hk0 hB.le
  have hkBmax : k / B ≤ G - 1 := by
    have h5 : k / B ≤ (G * B - 1) / B := Int.ediv_le_ediv hB (by omega)
    have h6 : (G * B - 1) / B = G - 1 := pred_mul_ediv hG hB
    omega
  have hck0 : 0 ≤ c * k := mul_nonneg hc.le hk0
  have hck1 : c * k ≤ c * (G * B - 1) := mul_le_mul_of_nonneg_left (by omega) hc.le
  have hcke : c * (G * B - 1) = G * B * c - c := by ring
  have hfuel : (((G * B).toNat : ℕ) : ℤ) = G * B := Int.toNat_of_nonneg hWpos.le
  -- the data-region walk
  have hwalkd : findByteOffsetAux B c (DL + c * k + k / B) DL 0
      (G * B).toNat = some k := by
    have h0 := findByteOffsetAux_finds B c DL (DL + c * k + k / B) k hB hc rfl
      (G * B).toNat 0 le_rfl hk0 (by omega)
    simpa using h0
  -- the text-region walk
  have hwalkt : findByteOffsetAux B 1 (TL + k + k / B) TL 0
      (G * B).toNat = some k := by
    have h0 := findByteOffsetAux_finds B 1 TL (TL + k + k / B) k hB one_pos (by ring)
      (G * B).toNat 0 le_rfl hk0 (by omega)
    simpa using h0
  refine ⟨⟨?_, ?_⟩, ⟨?_, ?_⟩⟩
  · simp only [dataDisplayCursorPos, hSB, hCB, hW, hFR, hDL, hRCv, hl, hk]
    rw [if_neg (by omega), if_neg (by omega)]
    norm_num
  · simp only [convertScreenPosToCursorPos, hSB, hCB, hSC, hW, hFR, hLR, hDL, hDRv,
      hTLv, hTRv, hl, hk]
    rw [if_pos (by constructor <;> omega), if_pos (by constructor <;> omega), hwalkd]
    show ConvertResult.offset (G * B * (l - fDL - 0 + fDL) + k) = ConvertResult.offset o
    have e : G * B * (l - fDL - 0 + fDL) = G * B * l := by ring
    rw [e, hok]
  · simp only [textDisplayCursorPos, hSB, hW, hFR, hTLv, hRCv, hl, hk]
    rw [if_neg (by omega), if_neg (by omega)]
    norm_num
  · simp only [convertScreenPosToCursorPos, hSB, hCB, hSC, hW, hFR, hLR, hDL, hDRv,
      hTLv, hTRv, hl, hk]
    rw [if_pos (by constructor <;> omega), if_neg (by rintro ⟨-, hx2⟩; omega),
      if_pos (by constructor <;> omega), hwalkt]
    show ConvertResult.offset (G * B * (l - fDL - 0 + fDL) + k) = ConvertResult.offset o
    have e : G * B * (l - fDL - 0 + fDL) = G * B * l := by ring
    rw [e, hok]

/-! ## Claims -/

/-- C1: for every byte offset o in [0, N-1] whose row is currently on-screen
(firstVisibleRow ≤ o div rowByteCount ≤ firstVisibleRow + rowCapacity - 1,
where rowCapacity is the code's dataRowCount), converting the offset to
screen coordinates with dataDisplayCursorPos or textDisplayCursorPos and
back with convertScreenPosToCursorPos is the identity. -/
theorem claim1_roundtrip (fmt : DataFormat) (rows cols N o fDL : ℤ)
    (ho0 : 0 ≤ o) (hoN : o ≤ N - 1)
    (h1 : fDL ≤ o / (computeScreenParams fmt none rows cols 2).rowByteCount)
    (h2 : o / (computeScreenParams fmt none rows cols 2).rowByteCount ≤
      fDL + (computeScreenParams fmt none rows cols 2).dataRowCount - 1) :
    (∃ y x, dataDisplayCursorPos (computeScreenParams fmt none rows cols 2) o fDL =
        some (y, x) ∧
      convertScreenPosToCursorPos (computeScreenParams fmt none rows cols 2) fDL y x =
        .offset o) ∧
    (∃ y x, textDisplayCursorPos (computeScreenParams fmt none rows cols 2) o fDL =
        some (y, x) ∧
      convertScreenPosToCursorPos (computeScreenParams fmt none rows cols 2) fDL y x =
        .offset o) := by
  rw [csp_rowByteCount] at h1 h2
  have h := roundtrip_core (computeScreenParams fmt none rows cols 2)
    (byteFormatSections fmt) (byteFormatSectionBytes fmt) (byteFormatColByteCount fmt) o fDL
    (sections_pos fmt) (sectionBytes_pos fmt) (colByteCount_pos fmt)
    (csp_dataSectionBytes fmt none rows cols 2) (csp_dataColByteCount fmt none rows cols 2)
    (csp_dataSectionCount fmt rows cols 2) (csp_rowByteCount fmt rows cols 2)
    (csp_dataRightCol_eq fmt rows cols 2) (csp_textLeftCol_eq fmt none rows cols 2)
    (csp_textRightCol_eq fmt rows cols 2) (csp_dataFirstRow fmt none rows cols 2)
    (csp_lastRow_eq fmt none rows cols 2) ho0 h1 h2
  exact ⟨⟨_, _, h.1.1, h.1.2⟩, ⟨_, _, h.2.1, h.2.2⟩⟩

/-- C1 witness: a concrete on-screen offset (hex, 80x24, buffer of 100
bytes, offset 17 on row 1 with firstDisplayLine 1) for which the round trip
holds. -/
theorem claim1_roundtrip_witness :
    ((0 : ℤ) ≤ 17 ∧ (17 : ℤ) ≤ 100 - 1 ∧
      (1 : ℤ) ≤ 17 / (computeScreenParams .hex none 24 80 2).rowByteCount ∧
      (17 : ℤ) / (computeScreenParams .hex none 24 80 2).rowByteCount ≤
        1 + (computeScreenParams .hex none 24 80 2).dataRowCount - 1) ∧
    ((∃ y x, dataDisplayCursorPos (computeScreenParams .hex none 24 80 2) 17 1 =
        some (y, x) ∧
      convertScreenPosToCursorPos (computeScreenParams .hex none 24 80 2) 1 y x =
        .offset 17) ∧
    (∃ y x, textDisplayCursorPos (computeScreenParams .hex none 24 80 2) 17 1 =
        some (y, x) ∧
      convertScreenPosToCursorPos (computeScreenParams .hex none 24 80 2) 1 y x =
        .offset 17)) :=
  ⟨⟨by decide, by decide, by decide, by decide⟩,
    claim1_roundtrip .hex 24 80 100 17 1 (by decide) (by decide) (by decide) (by decide)⟩

/-- C2: for every nonempty buffer, every signed delta and every starting
state satisfying the data-model invariants, moveCursor leaves the cursor in
[0, N-1] and firstDisplayLine in [0, maxFirstRow] with
maxFirstRow = max(0, ceil(N / rowByteCount) - rowCapacity + 1)
(the ceiling is (N + W - 1) / W; the code clamps to the even smaller
floor-based bound, so the stated bound holds). -/
theorem claim2_moveCursor_bounds (fmt : DataFormat) (rows cols N delta : ℤ)
    (normalize : Bool) (s : CursorState)
    (hN : 1 ≤ N) (hcp0 : 0 ≤ s.cursorPos) (hcp1 : s.cursorPos ≤ N)
    (hf : 0 ≤ s.firstDisplayLine) :
    0 ≤ (moveCursor (computeScreenParams fmt none rows cols 2) N s delta
        normalize).cursorPos ∧
    (moveCursor (computeScreenParams fmt none rows cols 2) N s delta
        normalize).cursorPos ≤ N - 1 ∧
    0 ≤ (moveCursor (computeScreenParams fmt none rows cols 2) N s delta
        normalize).firstDisplayLine ∧
    (moveCursor (computeScreenParams fmt none rows cols 2) N s delta
        normalize).firstDisplayLine ≤
      max 0 ((N + (computeScreenParams fmt none rows cols 2).rowByteCount - 1) /
          (computeScreenParams fmt none rows cols 2).rowByteCount -
        (computeScreenParams fmt none rows cols 2).dataRowCount + 1) := by
  obtain ⟨cp, fdl⟩ := s
  obtain ⟨W, hWv⟩ : ∃ v, (computeScreenParams fmt none rows cols 2).rowByteCount = v :=
    ⟨_, rfl⟩
  obtain ⟨RC, hRCv⟩ : ∃ v, (computeScreenParams fmt none rows cols 2).dataRowCount = v :=
    ⟨_, rfl⟩
  have hWpos : 0 < W := by rw [← hWv]; exact csp_rowByteCount_pos fmt rows cols 2
  have hmono : N / W ≤ (N + W - 1) / W := Int.ediv_le_ediv hWpos (by omega)
  simp only [moveCursor, hWv, hRCv] at *
  split_ifs <;> exact ⟨by omega, by omega, by omega, by omega⟩

/-- C2 witness: hex on 80x24, a 9-byte buffer, cursor 5, firstDisplayLine 0,
delta -37 (an out-of-range backward move). -/
theorem claim2_moveCursor_bounds_witness :
    ((1 : ℤ) ≤ 9 ∧ (0 : ℤ) ≤ 5 ∧ (5 : ℤ) ≤ 9 ∧ (0 : ℤ) ≤ 0) ∧
    (0 ≤ (moveCursor (computeScreenParams .hex none 24 80 2) 9 ⟨5, 0⟩ (-37)
        false).cursorPos ∧
    (moveCursor (computeScreenParams .hex none 24 80 2) 9 ⟨5, 0⟩ (-37)
        false).cursorPos ≤ 9 - 1 ∧
    0 ≤ (moveCursor (computeScreenParams .hex none 24 80 2) 9 ⟨5, 0⟩ (-37)
        false).firstDisplayLine ∧
    (moveCursor (computeScreenParams .hex none 24 80 2) 9 ⟨5, 0⟩ (-37)
        false).firstDisplayLine ≤
      max 0 ((9 + (computeScreenParams .hex none 24 80 2).rowByteCount - 1) /
          (computeScreenParams .hex none 24 80 2).rowByteCount -
        (computeScreenParams .hex none 24 80 2).dataRowCount + 1)) :=
  ⟨⟨by decide, by decide, by decide, by decide⟩,
    claim2_moveCursor_bounds .hex 24 80 9 (-37) false ⟨5, 0⟩
      (by decide) (by decide) (by decide) (by decide)⟩

/-- C3: with screen width 40 and radix hex the too-narrow condition
textRightCol ≥ screenCols indeed holds (textRightCol = 59), but the code
path is an assert that raises (modelled as ResizeOutcome.assertionError)
rather than the recoverable TooNarrow condition with a resize notice that
the claim requires; at width 80 the same geometry passes. -/
theorem claim3_tooNarrow_is_crash :
    (computeScreenParams .hex none 24 40 2).textRightCol = 59 ∧
    (computeScreenParams .hex none 24 40 2).screenCols = 40 ∧
    ¬ (computeScreenParams .hex none 24 40 2).textRightCol <
        (computeScreenParams .hex none 24 40 2).screenCols ∧
    resize .hex none 24 40 2 = .assertionError (computeScreenParams .hex none 24 40 2) ∧
    resize .hex none 24 80 2 = .ok (computeScreenParams .hex none 24 80 2) := by
  decide

/-- C4 counterexample: hex on 80x24 (rowByteCount 16, dataRowCount 20),
buffer of 1000 bytes, cursor at offset 0 on the top visible row
(firstDisplayLine 0): moveCursor by rowByteCount * rowCapacity = 320 with
normalize = False leaves firstDisplayLine = 1, not 0 + rowCapacity = 20. -/
theorem claim4_counterexample :
    (0 : ℤ) / (computeScreenParams .hex none 24 80 2).rowByteCount = 0 ∧
    (computeScreenParams .hex none 24 80 2).rowByteCount *
        (computeScreenParams .hex none 24 80 2).dataRowCount = 320 ∧
    (0 : ℤ) + 320 ≤ 1000 - 1 ∧
    (moveCursor (computeScreenParams .hex none 24 80 2) 1000 ⟨0, 0⟩ 320
        false).firstDisplayLine = 1 ∧
    (1 : ℤ) ≠ 0 + (computeScreenParams .hex none 24 80 2).dataRowCount := by
  decide

/-- C4 amended: from a top-of-viewport cursor, moveCursor by
rowByteCount * rowCapacity with normalize = False advances firstVisibleRow
by exactly the overshoot, which is 1 (the cursor lands on the bottom
visible row), not by rowCapacity, provided the target offset is still in
the buffer and the end-of-file clamp leaves room. -/
theorem claim4_amended_minimal_scroll (fmt : DataFormat) (rows cols N cp fDL : ℤ)
    (hcp : 0 ≤ cp) (hfdl : 0 ≤ fDL)
    (hrc : 0 < (computeScreenParams fmt none rows cols 2).dataRowCount)
    (htop : cp / (computeScreenParams fmt none rows cols 2).rowByteCount = fDL)
    (hin : cp + (computeScreenParams fmt none rows cols 2).rowByteCount *
        (computeScreenParams fmt none rows cols 2).dataRowCount ≤ N - 1)
    (hroom : fDL + 1 ≤ max (N / (computeScreenParams fmt none rows cols 2).rowByteCount -
        (computeScreenParams fmt none rows cols 2).dataRowCount + 1) 0) :
    (moveCursor (computeScreenParams fmt none rows cols 2) N ⟨cp, fDL⟩
        ((computeScreenParams fmt none rows cols 2).rowByteCount *
          (computeScreenParams fmt none rows cols 2).dataRowCount) false).firstDisplayLine =
      fDL + 1 := by
  obtain ⟨W, hWv⟩ : ∃ v, (computeScreenParams fmt none rows cols 2).rowByteCount = v :=
    ⟨_, rfl⟩
  obtain ⟨RC, hRCv⟩ : ∃ v, (computeScreenParams fmt none rows cols 2).dataRowCount = v :=
    ⟨_, rfl⟩
  have hWpos : 0 < W := by rw [← hWv]; exact csp_rowByteCount_pos fmt rows cols 2
  simp only [hWv, hRCv] at htop hin hroom hrc
  have hWRC : 0 < W * RC := mul_pos hWpos hrc
  have hdiv : (cp + W * RC) / W = cp / W + RC := Int.add_mul_ediv_left cp RC hWpos.ne'
  simp only [moveCursor, hWv, hRCv]
  rw [if_pos (le_of_lt hWRC), if_neg (by omega : ¬ W * RC ≤ 0)]
  rw [min_eq_right (by omega : cp + W * RC ≤ N - 1), hdiv]
  rw [if_neg (by omega), if_pos (by omega)]
  simp only [Bool.false_eq_true, if_false]
  rw [max_eq_left (by omega), min_eq_left (by omega)]
  omega

/-- C4 amended witness: the concrete paging scenario of the counterexample
satisfies the amended statement (firstDisplayLine advances 0 to 1). -/
theorem claim4_amended_minimal_scroll_witness :
    ((0 : ℤ) ≤ 0 ∧ (0 : ℤ) ≤ 0 ∧
      0 < (computeScreenParams .hex none 24 80 2).dataRowCount ∧
      (0 : ℤ) / (computeScreenParams .hex none 24 80 2).rowByteCount = 0 ∧
      (0 : ℤ) + (computeScreenParams .hex none 24 80 2).rowByteCount *
          (computeScreenParams .hex none 24 80 2).dataRowCount ≤ 1000 - 1 ∧
      (0 : ℤ) + 1 ≤
        max ((1000 : ℤ) / (computeScreenParams .hex none 24 80 2).rowByteCount -
          (computeScreenParams .hex none 24 80 2).dataRowCount + 1) 0) ∧
    (moveCursor (computeScreenParams .hex none 24 80 2) 1000 ⟨0, 0⟩
        ((computeScreenParams .hex none 24 80 2).rowByteCount *
          (computeScreenParams .hex none 24 80 2).dataRowCount) false).firstDisplayLine =
      0 + 1 :=
  ⟨⟨by decide, by decide, by decide, by decide, by decide, by decide⟩,
    claim4_amended_minimal_scroll .hex 24 80 1000 0 0
      (by decide) (by decide) (by decide) (by decide) (by decide) (by decide)⟩

/-- Length preservation of the single-byte buffer write for an in-range
cursor. -/
theorem writeByteAt_length (data : List ℕ) (p : ℤ) (b : ℕ)
    (h0 : 0 ≤ p) (h : p < (data.length : ℤ)) :
    (writeByteAt data p b).length = data.length := by
  unfold writeByteAt
  rw [List.length_append, List.length_append, List.length_take, List.length_drop]
  simp only [List.length_cons, List.length_nil]
  omega

/-- C5 counterexample: with buffer b"ABCXYZABC", pattern "ABC" and cursor at
offset 8, the backward search returns offset 6
(rfind(pattern, 0, 8+3-1) still includes the match starting at 6), not
offset 0 as the claim states. -/
theorem claim5_counterexample :
    searchBytes abcBuffer abcPattern 8 .backward = some 6 ∧
    some (6 : ℕ) ≠ some 0 := by decide

/-- C5 amended: forward text search for "ABC" with cursor 0 scans from
offset 1 and finds offset 6; the backward search with cursor at offset 8
finds offset 6 (the rightmost match starting strictly before the cursor),
not 0; when no match exists (pattern byte 81 = "Q") the result is
none ("not found") in both directions. -/
theorem claim5_amended_search :
    searchBytes abcBuffer abcPattern 0 .forward = some 6 ∧
    searchBytes abcBuffer abcPattern 8 .backward = some 6 ∧
    searchBytes abcBuffer [81] 0 .forward = none ∧
    searchBytes abcBuffer [81] 8 .backward = none := by decide

/-- C6 counterexample: hex mode with a one-byte buffer [0x41], cursor 0 and
pending digit "1": feeding "f" writes 0x1f at offset 0, but the cursor does
not advance (moveCursor clamps to N - 1 = 0), refuting the unconditional
"the cursor advances by one". -/
theorem claim6_counterexample :
    (dataAreaKey .hex (computeScreenParams .hex none 24 80 2)
        ⟨[65], 0, 0, ['1'], false⟩ 'f').dataBytes = [31] ∧
    (dataAreaKey .hex (computeScreenParams .hex none 24 80 2)
        ⟨[65], 0, 0, ['1'], false⟩ 'f').cursorPos = 0 ∧
    (0 : ℤ) ≠ 0 + 1 := by decide

/-- C6 amended: when an accepted digit completes the accumulator, the
string is parsed in the radix base; a value of at most 255 is written at
the cursor and the cursor advances by one clamped to the last byte
(min (N-1, cursor+1), by moveCursor's clamp); a value above 255 is silently
discarded with no other state change; in both cases the accumulator
resets. -/
theorem claim6_amended_commit (fmt : DataFormat) (rows cols : ℤ) (s : EditorState)
    (key : Char)
    (hkey : key ∈ validInputChars fmt)
    (hlen : (s.editChars.length : ℤ) + 1 = byteFormatColByteCount fmt)
    (hcp0 : 0 ≤ s.cursorPos) (hcpN : s.cursorPos < (s.dataBytes.length : ℤ)) :
    (parseIntBase (numberBases fmt) (s.editChars ++ [key]) < 256 →
      (dataAreaKey fmt (computeScreenParams fmt none rows cols 2) s key).dataBytes =
          writeByteAt s.dataBytes s.cursorPos
            (parseIntBase (numberBases fmt) (s.editChars ++ [key])) ∧
      (dataAreaKey fmt (computeScreenParams fmt none rows cols 2) s key).cursorPos =
          min ((s.dataBytes.length : ℤ) - 1) (s.cursorPos + 1) ∧
      (dataAreaKey fmt (computeScreenParams fmt none rows cols 2) s key).editChars = [] ∧
      (dataAreaKey fmt (computeScreenParams fmt none rows cols 2) s key).modified = true) ∧
    (256 ≤ parseIntBase (numberBases fmt) (s.editChars ++ [key]) →
      dataAreaKey fmt (computeScreenParams fmt none rows cols 2) s key =
        { s with editChars := ([] : List Char) }) := by
  have hglobal := validInputChars_subset_global fmt key hkey
  have hlen2 : ((s.editChars ++ [key]).length : ℤ) = byteFormatColByteCount fmt := by
    have h1 : ([key] : List Char).length = 1 := rfl
    rw [List.length_append, h1]
    push_cast
    omega
  simp only [dataAreaKey]
  rw [if_pos hglobal, if_pos hkey, if_pos hlen2]
  refine ⟨fun hlt => ?_, fun hge => ?_⟩
  · rw [if_pos hlt]
    refine ⟨rfl, ?_, rfl, rfl⟩
    have hlen3 : ((writeByteAt s.dataBytes s.cursorPos
        (parseIntBase (numberBases fmt) (s.editChars ++ [key]))).length : ℤ) =
        (s.dataBytes.length : ℤ) := by
      rw [writeByteAt_length s.dataBytes s.cursorPos _ hcp0 hcpN]
    show (moveCursor (computeScreenParams fmt none rows cols 2)
        ((writeByteAt s.dataBytes s.cursorPos
          (parseIntBase (numberBases fmt) (s.editChars ++ [key]))).length : ℤ)
        ⟨s.cursorPos, s.firstDisplayLine⟩ 1 false).cursorPos =
      min ((s.dataBytes.length : ℤ) - 1) (s.cursorPos + 1)
    simp only [moveCursor, hlen3]
    norm_num
  · rw [if_neg (by omega)]

/-- C6 amended witness: hex, buffer [0x41, 0x42], cursor 0, pending "1",
key "f": the byte 0x1f is written at offset 0 and the cursor moves to
min(1, 1) = 1. -/
theorem claim6_amended_commit_witness :
    (('f' ∈ validInputChars .hex) ∧
      (((['1'] : List Char).length : ℤ) + 1 = byteFormatColByteCount .hex) ∧
      ((0 : ℤ) ≤ 0) ∧ ((0 : ℤ) < (([65, 66] : List ℕ).length : ℤ))) ∧
    ((parseIntBase (numberBases .hex) (['1'] ++ ['f']) < 256 →
      (dataAreaKey .hex (computeScreenParams .hex none 24 80 2)
          ⟨[65, 66], 0, 0, ['1'], false⟩ 'f').dataBytes =
          writeByteAt [65, 66] 0 (parseIntBase (numberBases .hex) (['1'] ++ ['f'])) ∧
      (dataAreaKey .hex (computeScreenParams .hex none 24 80 2)
          ⟨[65, 66], 0, 0, ['1'], false⟩ 'f').cursorPos =
          min ((([65, 66] : List ℕ).length : ℤ) - 1) (0 + 1) ∧
      (dataAreaKey .hex (computeScreenParams .hex none 24 80 2)
          ⟨[65, 66], 0, 0, ['1'], false⟩ 'f').editChars = [] ∧
      (dataAreaKey .hex (computeScreenParams .hex none 24 80 2)
          ⟨[65, 66], 0, 0, ['1'], false⟩ 'f').modified = true) ∧
    (256 ≤ parseIntBase (numberBases .hex) (['1'] ++ ['f']) →
      dataAreaKey .hex (computeScreenParams .hex none 24 80 2)
          ⟨[65, 66], 0, 0, ['1'], false⟩ 'f' =
        { dataBytes := [65, 66], cursorPos := 0, firstDisplayLine := 0,
          editChars := ([] : List Char), modified := false })) :=
  ⟨⟨by decide, by decide, by decide, by decide⟩,
    claim6_amended_commit .hex 24 80 ⟨[65, 66], 0, 0, ['1'], false⟩ 'f'
      (by decide) (by decide) (by decide) (by decide)⟩

/-- C7 counterexample: hex mode, nonempty accumulator "1": feeding "z"
leaves the buffer unchanged but clears the accumulator (the source's else
branch runs self._editChars = ""), refuting "no state change". -/
theorem claim7_counterexample :
    (dataAreaKey .hex (computeScreenParams .hex none 24 80 2)
        ⟨[65, 66], 0, 0, ['1'], false⟩ 'z').dataBytes = [65, 66] ∧
    (dataAreaKey .hex (computeScreenParams .hex none 24 80 2)
        ⟨[65, 66], 0, 0, ['1'], false⟩ 'z').editChars = [] ∧
    ([] : List Char) ≠ ['1'] := by decide

/-- C7 amended: a character outside the global edit set (such as "z" in hex
mode) leaves the buffer and everything but the accumulator unchanged but
resets the accumulator to empty; a character inside the global edit set but
outside the active radix's digit set (such as "f" in decimal mode) is
rejected with no state change at all. -/
theorem claim7_amended_reject (fmt : DataFormat) (rows cols : ℤ) (s : EditorState)
    (key : Char) :
    (key ∉ globalEditInputChars →
      dataAreaKey fmt (computeScreenParams fmt none rows cols 2) s key =
        { s with editChars := ([] : List Char) }) ∧
    (key ∈ globalEditInputChars → key ∉ validInputChars fmt →
      dataAreaKey fmt (computeScreenParams fmt none rows cols 2) s key = s) := by
  constructor
  · intro h
    simp only [dataAreaKey]
    rw [if_neg h]
  · intro h1 h2
    simp only [dataAreaKey]
    rw [if_pos h1, if_neg h2]

/-- C7 amended witness: "z" with a nonempty accumulator clears it and
leaves the buffer unchanged; "f" in decimal mode changes nothing. -/
theorem claim7_amended_reject_witness :
    ('z' ∉ globalEditInputChars ∧
      dataAreaKey .hex (computeScreenParams .hex none 24 80 2)
          ⟨[65, 66], 0, 0, ['1'], false⟩ 'z' =
        { dataBytes := [65, 66], cursorPos := 0, firstDisplayLine := 0,
          editChars := ([] : List Char), modified := false }) ∧
    ('f' ∈ globalEditInputChars ∧ 'f' ∉ validInputChars .decimal ∧
      dataAreaKey .decimal (computeScreenParams .decimal none 24 80 2)
          ⟨[65, 66], 0, 0, ['1'], false⟩ 'f' =
        ⟨[65, 66], 0, 0, ['1'], false⟩) :=
  ⟨⟨by decide,
      (claim7_amended_reject .hex 24 80 ⟨[65, 66], 0, 0, ['1'], false⟩ 'z').1 (by decide)⟩,
    ⟨by decide, by decide,
      (claim7_amended_reject .decimal 24 80 ⟨[65, 66], 0, 0, ['1'], false⟩ 'f').2
        (by decide) (by decide)⟩⟩

/-- C8: with no record size, the layout uses the fixed table
hex (2,8,2), decimal (2,5,3), octal (3,4,3), binary (4,1,8);
rowByteCount = groupCount * bytesPerGroup,
dataSectionWidth = groupCount*bytesPerGroup*charsPerByte + (groupCount - 1),
textSectionWidth = groupCount*bytesPerGroup + (groupCount - 1) for every
screen size; and hex on 80x24 gives rowByteCount 16, dataLeftCol 9 and
textRightCol < 80. -/
theorem claim8_layout :
    (∀ (fmt : DataFormat) (rows cols : ℤ),
      (computeScreenParams fmt none rows cols 2).rowByteCount =
          byteFormatSections fmt * byteFormatSectionBytes fmt ∧
      (computeScreenParams fmt none rows cols 2).dataSectionWidth =
          byteFormatSections fmt * byteFormatSectionBytes fmt *
            byteFormatColByteCount fmt + (byteFormatSections fmt - 1) ∧
      (computeScreenParams fmt none rows cols 2).textSectionWidth =
          byteFormatSections fmt * byteFormatSectionBytes fmt +
            (byteFormatSections fmt - 1)) ∧
    (byteFormatSections .hex = 2 ∧ byteFormatSectionBytes .hex = 8 ∧
      byteFormatColByteCount .hex = 2) ∧
    (byteFormatSections .decimal = 2 ∧ byteFormatSectionBytes .decimal = 5 ∧
      byteFormatColByteCount .decimal = 3) ∧
    (byteFormatSections .octal = 3 ∧ byteFormatSectionBytes .octal = 4 ∧
      byteFormatColByteCount .octal = 3) ∧
    (byteFormatSections .binary = 4 ∧ byteFormatSectionBytes .binary = 1 ∧
      byteFormatColByteCount .binary = 8) ∧
    (computeScreenParams .hex none 24 80 2).rowByteCount = 16 ∧
    (computeScreenParams .hex none 24 80 2).dataLeftCol = 9 ∧
    (computeScreenParams .hex none 24 80 2).textRightCol < 80 := by
  refine ⟨?_, by decide, by decide, by decide, by decide, by decide, by decide, by decide⟩
  intro fmt rows cols
  refine ⟨csp_rowByteCount fmt rows cols 2, ?_, ?_⟩
  · rw [csp_dataSectionWidth]; ring
  · rw [csp_textSectionWidth]; ring

/-- C9 counterexample: with a one-byte buffer and cursor offset 1 = N
(reachable because a mouse click past the end of the data is assigned to
the cursor unclamped, see claim 10), committing the hex digits "1","f"
appends: the buffer grows from length 1 to length 2, refuting
length preservation "for every state in which a write occurs". -/
theorem claim9_counterexample :
    (dataAreaKey .hex (computeScreenParams .hex none 24 80 2)
        ⟨[65], 1, 0, ['1'], false⟩ 'f').dataBytes = [65, 31] ∧
    (dataAreaKey .hex (computeScreenParams .hex none 24 80 2)
        ⟨[65], 1, 0, ['1'], false⟩ 'f').dataBytes.length = 2 ∧
    (2 : ℕ) ≠ 1 := by decide

/-- C9 amended: every byte-mutating operation preserves the buffer length
when the cursor is inside the buffer (0 ≤ cursorPos < N) — data-area digit
commits and text-area character writes for any state and key, and the
auxiliary integer-field write unconditionally (its bounds guard makes
out-of-range writes no-ops). -/
theorem claim9_amended_length (fmt : DataFormat) (rows cols : ℤ) (s : EditorState)
    (key : Char) (encodedByte : ℕ) (data : List ℕ) (cursorPos byteCount : ℕ)
    (packed : List ℕ)
    (hcp0 : 0 ≤ s.cursorPos) (hcpN : s.cursorPos < (s.dataBytes.length : ℤ))
    (hpk : packed.length = byteCount) :
    (dataAreaKey fmt (computeScreenParams fmt none rows cols 2) s
        key).dataBytes.length = s.dataBytes.length ∧
    (textAreaKey (computeScreenParams fmt none rows cols 2) s
        encodedByte).dataBytes.length = s.dataBytes.length ∧
    (intFieldWrite data cursorPos byteCount packed).length = data.length := by
  refine ⟨?_, ?_, ?_⟩
  · simp only [dataAreaKey]
    split_ifs <;>
      first
        | rfl
        | exact writeByteAt_length s.dataBytes s.cursorPos _ hcp0 hcpN
  · exact writeByteAt_length s.dataBytes s.cursorPos _ hcp0 hcpN
  · simp only [intFieldWrite]
    split_ifs with h
    · rw [List.length_append, List.length_append, List.length_take, List.length_drop]
      omega
    · rfl

/-- C9 amended witness: a concrete in-range data write, text write and
integer-field write, all length preserving. -/
theorem claim9_amended_length_witness :
    (((0 : ℤ) ≤ 0) ∧ ((0 : ℤ) < (([65, 66] : List ℕ).length : ℤ)) ∧
      (([9, 9] : List ℕ).length = 2)) ∧
    ((dataAreaKey .hex (computeScreenParams .hex none 24 80 2)
        ⟨[65, 66], 0, 0, ['1'], false⟩ 'f').dataBytes.length =
        ([65, 66] : List ℕ).length ∧
    (textAreaKey (computeScreenParams .hex none 24 80 2)
        ⟨[65, 66], 0, 0, ['1'], false⟩ 97).dataBytes.length =
        ([65, 66] : List ℕ).length ∧
    (intFieldWrite [1, 2, 3, 4] 0 2 [9, 9]).length = ([1, 2, 3, 4] : List ℕ).length) :=
  ⟨⟨by decide, by decide, by decide⟩,
    claim9_amended_length .hex 24 80 ⟨[65, 66], 0, 0, ['1'], false⟩ 'f' 97
      [1, 2, 3, 4] 0 2 [9, 9] (by decide) (by decide) (by decide)⟩

/-- The Bool rectangle test unfolded. -/
theorem isInRectangle_iff (y x uly ulx lry lrx : ℤ) :
    isInRectangle (y, x) (uly, ulx) (lry, lrx) = true ↔
      uly ≤ y ∧ y ≤ lry ∧ ulx ≤ x ∧ x ≤ lrx := by
  simp [isInRectangle, and_assoc]

/-- convertScreenPosToCursorPos answers the Python None exactly for
coordinates outside the data-row band or outside both column ranges. -/
theorem convert_outside_iff (g : Geometry) (fDL y x : ℤ) :
    convertScreenPosToCursorPos g fDL y x = .outside ↔
      ¬ ((g.dataFirstRow ≤ y ∧ y ≤ g.dataLastRow) ∧
        ((g.dataLeftCol ≤ x ∧ x ≤ g.dataRightCol) ∨
          (g.textLeftCol ≤ x ∧ x ≤ g.textRightCol))) := by
  simp only [convertScreenPosToCursorPos]
  by_cases hrow : g.dataFirstRow ≤ y ∧ y ≤ g.dataLastRow
  · rw [if_pos hrow]
    by_cases hdx : g.dataLeftCol ≤ x ∧ x ≤ g.dataRightCol
    · rw [if_pos hdx]
      constructor
      · intro h
        exfalso
        cases haux : findByteOffsetAux g.dataSectionBytes g.dataColByteCount x
            g.dataLeftCol 0 (g.dataSectionCount * g.dataSectionBytes).toNat with
        | none => rw [haux] at h; simp at h
        | some b => rw [haux] at h; simp at h
      · intro h
        exact absurd ⟨hrow, Or.inl hdx⟩ h
    · rw [if_neg hdx]
      by_cases htx : g.textLeftCol ≤ x ∧ x ≤ g.textRightCol
      · rw [if_pos htx]
        constructor
        · intro h
          exfalso
          cases haux : findByteOffsetAux g.dataSectionBytes 1 x
              g.textLeftCol 0 (g.dataSectionCount * g.dataSectionBytes).toNat with
          | none => rw [haux] at h; simp at h
          | some b => rw [haux] at h; simp at h
        · intro h
          exact absurd ⟨hrow, Or.inr htx⟩ h
      · rw [if_neg htx]
        simp [hrow, hdx, htx]
  · rw [if_neg hrow]
    simp [hrow]

/-- Core of claim 10: inside either region the conversion returns a
computed offset — the column walk cannot fall off the end, so the
assertFail outcome is unreachable from in-region coordinates. -/
theorem convert_offset_core (g : Geometry) (G B c fDL y x : ℤ)
    (hG : 0 < G) (hB : 0 < B) (hc : 0 < c)
    (hSB : g.dataSectionBytes = B) (hCB : g.dataColByteCount = c)
    (hSC : g.dataSectionCount = G)
    (hDR : g.dataRightCol = g.dataLeftCol + G * B * c + G - 2)
    (hTL : g.textLeftCol = g.dataRightCol + 2)
    (hTR : g.textRightCol = g.textLeftCol + G * B + G - 2)
    (hy : g.dataFirstRow ≤ y ∧ y ≤ g.dataLastRow)
    (hx : (g.dataLeftCol ≤ x ∧ x ≤ g.dataRightCol) ∨
      (g.textLeftCol ≤ x ∧ x ≤ g.textRightCol)) :
    ∃ o, convertScreenPosToCursorPos g fDL y x = .offset o := by
  have hWpos : 0 < G * B := mul_pos hG hB
  have hfuel : (((G * B).toNat : ℕ) : ℤ) = G * B := Int.toNat_of_nonneg hWpos.le
  have hfuel1 : 1 ≤ (G * B).toNat := by omega
  have hGB1 : (G * B - 1) / B = G - 1 := pred_mul_ediv hG hB
  obtain ⟨DL, hDL⟩ : ∃ v, g.dataLeftCol = v := ⟨_, rfl⟩
  obtain ⟨DR, hDRv⟩ : ∃ v, g.dataRightCol = v := ⟨_, rfl⟩
  obtain ⟨TL, hTLv⟩ : ∃ v, g.textLeftCol = v := ⟨_, rfl⟩
  obtain ⟨TR, hTRv⟩ : ∃ v, g.textRightCol = v := ⟨_, rfl⟩
  rw [hDL] at hDR
  rw [hDRv] at hDR hTL
  rw [hTLv] at hTL hTR
  rw [hTRv] at hTR
  rw [hDL, hDRv, hTLv, hTRv] at hx
  simp only [convertScreenPosToCursorPos, hSB, hCB, hSC, hDL, hDRv, hTLv, hTRv]
  rw [if_pos hy]
  rcases hx with ⟨hx1, hx2⟩ | ⟨hx1, hx2⟩
  · rw [if_pos ⟨hx1, hx2⟩]
    have hbound : x < DL + c * ((0 : ℤ) + ((G * B).toNat : ℤ)) +
        ((0 : ℤ) + ((G * B).toNat : ℤ) - 1) / B := by
      rw [hfuel]
      have e1 : (0 : ℤ) + G * B = G * B := by ring
      rw [e1]
      have e2 : c * (G * B) = G * B * c := by ring
      rw [e2, hGB1]
      omega
    obtain ⟨b, hb⟩ := findByteOffsetAux_succeeds B c DL x hB ((G * B).toNat) 0
      le_rfl hfuel1 hbound
    have hb2 : findByteOffsetAux B c x DL 0 (G * B).toNat = some b := by
      have e0 : DL + c * 0 + (0 : ℤ) / B = DL := by simp
      rw [e0] at hb
      exact hb
    rw [hb2]
    exact ⟨_, rfl⟩
  · rw [if_neg (by rintro ⟨-, h2x⟩; omega)]
    rw [if_pos ⟨hx1, hx2⟩]
    have hbound : x < TL + 1 * ((0 : ℤ) + ((G * B).toNat : ℤ)) +
        ((0 : ℤ) + ((G * B).toNat : ℤ) - 1) / B := by
      rw [hfuel]
      have e1 : (0 : ℤ) + G * B = G * B := by ring
      rw [e1]
      have e2 : (1 : ℤ) * (G * B) = G * B := by ring
      rw [e2, hGB1]
      omega
    obtain ⟨b, hb⟩ := findByteOffsetAux_succeeds B 1 TL x hB ((G * B).toNat) 0
      le_rfl hfuel1 hbound
    have hb2 : findByteOffsetAux B 1 x TL 0 (G * B).toNat = some b := by
      have e0 : TL + 1 * 0 + (0 : ℤ) / B = TL := by simp
      rw [e0] at hb
      exact hb
    rw [hb2]
    exact ⟨_, rfl⟩

/-- C10: convertScreenPosToCursorPos returns the Python None exactly when
the coordinate is outside both the data-region and text-region rectangles;
for every coordinate inside either rectangle it returns a computed offset
(never the internal assert), with no clamping to the buffer length, and
performMouseClick assigns that offset to the cursor unmodified.
Concretely, with a 1-byte buffer on hex 80x24, clicking the grid cell
(row 1, col 9) yields cursor offset 16 ≥ 1. -/
theorem claim10_convert_unclamped :
    (∀ (fmt : DataFormat) (rows cols fDL y x oldCp : ℤ),
      (convertScreenPosToCursorPos (computeScreenParams fmt none rows cols 2) fDL y x =
          .outside ↔
        ¬ (isInRectangle (y, x)
            ((computeScreenParams fmt none rows cols 2).dataFirstRow,
              (computeScreenParams fmt none rows cols 2).dataLeftCol)
            ((computeScreenParams fmt none rows cols 2).dataLastRow,
              (computeScreenParams fmt none rows cols 2).dataRightCol) = true ∨
          isInRectangle (y, x)
            ((computeScreenParams fmt none rows cols 2).dataFirstRow,
              (computeScreenParams fmt none rows cols 2).textLeftCol)
            ((computeScreenParams fmt none rows cols 2).dataLastRow,
              (computeScreenParams fmt none rows cols 2).textRightCol) = true)) ∧
      ((isInRectangle (y, x)
            ((computeScreenParams fmt none rows cols 2).dataFirstRow,
              (computeScreenParams fmt none rows cols 2).dataLeftCol)
            ((computeScreenParams fmt none rows cols 2).dataLastRow,
              (computeScreenParams fmt none rows cols 2).dataRightCol) = true ∨
          isInRectangle (y, x)
            ((computeScreenParams fmt none rows cols 2).dataFirstRow,
              (computeScreenParams fmt none rows cols 2).textLeftCol)
            ((computeScreenParams fmt none rows cols 2).dataLastRow,
              (computeScreenParams fmt none rows cols 2).textRightCol) = true) →
        ∃ o, convertScreenPosToCursorPos (computeScreenParams fmt none rows cols 2)
            fDL y x = .offset o ∧
          performMouseClickCursor (computeScreenParams fmt none rows cols 2)
            fDL y x oldCp = o)) ∧
    convertScreenPosToCursorPos (computeScreenParams .hex none 24 80 2) 0 1 9 =
      .offset 16 ∧
    (1 : ℤ) ≤ 16 ∧
    performMouseClickCursor (computeScreenParams .hex none 24 80 2) 0 1 9 0 = 16 := by
  refine ⟨?_, by decide, by decide, by decide⟩
  intro fmt rows cols fDL y x oldCp
  obtain ⟨FR, hFRv⟩ :
      ∃ v, (computeScreenParams fmt none rows cols 2).dataFirstRow = v := ⟨_, rfl⟩
  obtain ⟨LR, hLRv⟩ :
      ∃ v, (computeScreenParams fmt none rows cols 2).dataLastRow = v := ⟨_, rfl⟩
  obtain ⟨DL, hDLv⟩ :
      ∃ v, (computeScreenParams fmt none rows cols 2).dataLeftCol = v := ⟨_, rfl⟩
  obtain ⟨DR, hDRv⟩ :
      ∃ v, (computeScreenParams fmt none rows cols 2).dataRightCol = v := ⟨_, rfl⟩
  obtain ⟨TL, hTLv⟩ :
      ∃ v, (computeScreenParams fmt none rows cols 2).textLeftCol = v := ⟨_, rfl⟩
  obtain ⟨TR, hTRv⟩ :
      ∃ v, (computeScreenParams fmt none rows cols 2).textRightCol = v := ⟨_, rfl⟩
  have hout := convert_outside_iff (computeScreenParams fmt none rows cols 2) fDL y x
  rw [hFRv, hLRv, hDLv, hDRv, hTLv, hTRv] at hout ⊢
  have hr1 := isInRectangle_iff y x FR DL LR DR
  have hr2 := isInRectangle_iff y x FR TL LR TR
  constructor
  · rw [hout]
    constructor
    · intro h hrect
      apply h
      rcases hrect with h1 | h1
      · rw [hr1] at h1
        exact ⟨⟨h1.1, h1.2.1⟩, Or.inl ⟨h1.2.2.1, h1.2.2.2⟩⟩
      · rw [hr2] at h1
        exact ⟨⟨h1.1, h1.2.1⟩, Or.inr ⟨h1.2.2.1, h1.2.2.2⟩⟩
    · intro h hconj
      rcases hconj.2 with h2 | h2
      · exact h (Or.inl (hr1.mpr ⟨hconj.1.1, hconj.1.2, h2.1, h2.2⟩))
      · exact h (Or.inr (hr2.mpr ⟨hconj.1.1, hconj.1.2, h2.1, h2.2⟩))
  · intro hin
    have hin2 : (FR ≤ y ∧ y ≤ LR) ∧
        ((DL ≤ x ∧ x ≤ DR) ∨ (TL ≤ x ∧ x ≤ TR)) := by
      rcases hin with h1 | h1
      · rw [hr1] at h1
        exact ⟨⟨h1.1, h1.2.1⟩, Or.inl ⟨h1.2.2.1, h1.2.2.2⟩⟩
      · rw [hr2] at h1
        exact ⟨⟨h1.1, h1.2.1⟩, Or.inr ⟨h1.2.2.1, h1.2.2.2⟩⟩
    obtain ⟨o, ho⟩ := convert_offset_core (computeScreenParams fmt none rows cols 2)
      (byteFormatSections fmt) (byteFormatSectionBytes fmt) (byteFormatColByteCount fmt)
      fDL y x
      (sections_pos fmt) (sectionBytes_pos fmt) (colByteCount_pos fmt)
      (csp_dataSectionBytes fmt none rows cols 2) (csp_dataColByteCount fmt none rows cols 2)
      (csp_dataSectionCount fmt rows cols 2)
      (csp_dataRightCol_eq fmt rows cols 2) (csp_textLeftCol_eq fmt none rows cols 2)
      (csp_textRightCol_eq fmt rows cols 2)
      (by rw [hFRv, hLRv]; exact hin2.1)
      (by rw [hDLv, hDRv, hTLv, hTRv]; exact hin2.2)
    refine ⟨o, ho, ?_⟩
    simp only [performMouseClickCursor]
    rw [hFRv, hLRv, hDLv, hDRv, hTLv, hTRv]
    rw [if_pos (by rcases hin with h | h <;> simp [h]), ho]

/-- C10 witness: the quantified part applied at the concrete in-rectangle
click (hex 80x24, row 1, col 9, firstDisplayLine 0). -/
theorem claim10_convert_unclamped_witness :
    (isInRectangle ((1 : ℤ), (9 : ℤ))
        ((computeScreenParams .hex none 24 80 2).dataFirstRow,
          (computeScreenParams .hex none 24 80 2).dataLeftCol)
        ((computeScreenParams .hex none 24 80 2).dataLastRow,
          (computeScreenParams .hex none 24 80 2).dataRightCol) = true ∨
      isInRectangle ((1 : ℤ), (9 : ℤ))
        ((computeScreenParams .hex none 24 80 2).dataFirstRow,
          (computeScreenParams .hex none 24 80 2).textLeftCol)
        ((computeScreenParams .hex none 24 80 2).dataLastRow,
          (computeScreenParams .hex none 24 80 2).textRightCol) = true) ∧
    (∃ o, convertScreenPosToCursorPos (computeScreenParams .hex none 24 80 2)
        0 1 9 = .offset o ∧
      performMouseClickCursor (computeScreenParams .hex none 24 80 2) 0 1 9 7 = o) :=
  ⟨Or.inl (by decide),
    (claim10_convert_unclamped.1 .hex 24 80 0 1 9 7).2 (Or.inl (by decide))⟩

end HexEd
